import Mathlib

/-!
Verification of the claim set for the storefront-onboarding orchestration
core (a TypeScript codebase).  Each section shallowly embeds the source
functions a claim refers to — pure logic becomes Lean functions, stateful
remote interaction becomes explicit state passing, thrown exceptions become
sum types — and the claims are settled as theorems about these definitions.
-/

set_option maxRecDepth 4096
set_option linter.unusedVariables false

namespace ShopifySetup

/-! ## Resilient API client (src/lib/shopify.ts)

`ShopifyClient.graphql` performs one POST and classifies the outcome:
a non-2xx HTTP response throws a plain `Error`, a 200 body containing a
top-level `errors` array throws `ShopifyGraphQLError`, otherwise the
`data` payload is returned.  `ShopifyClient.graphqlWithRetry` loops
`attempt = 0 .. maxRetries-1`, re-calling on throttled errors with a delay
of `2^attempt * 1000` milliseconds, and rethrowing otherwise.

The network is modelled as a function from attempt index to the
`HttpResponse` the fetch of that attempt produces; the payload type is a
parameter since the source function is generic. -/

/-- One entry of the `errors` array of a GraphQL response body:
a message plus the optional `extensions.code` field. -/
structure GqlErrEntry where
  message : String
  extensionsCode : Option String
deriving DecidableEq, Repr

/-- The observable outcome of the HTTP fetch of one attempt:
either a non-ok status, or an ok (200) response whose parsed JSON body has
an optional `errors` array and a `data` payload. -/
inductive HttpResponse (α : Type) where
  | notOk (status : Nat) (statusText : String)
  | ok (errors : Option (List GqlErrEntry)) (data : α)
deriving DecidableEq, Repr

/-- The errors `graphql` can throw: a plain `Error` for a non-2xx response,
`ShopifyGraphQLError` for body-level errors, and a plain `Error` with a
fixed message for the unreachable loop exit of `graphqlWithRetry`. -/
inductive ClientError where
  | httpError (status : Nat) (statusText : String)
  | graphQLErrors (errors : List GqlErrEntry)
  | generic (msg : String)
deriving DecidableEq, Repr

/-- Boolean prefix test on character lists. -/
def startsWithList (needle hay : List Char) : Bool :=
  match needle, hay with
  | [], _ => true
  | _ :: _, [] => false
  | a :: as, b :: bs => a == b && startsWithList as bs

/-- Boolean substring test on character lists. -/
def containsSubList (needle : List Char) : List Char → Bool
  | [] => needle.isEmpty
  | b :: bs => startsWithList needle (b :: bs) || containsSubList needle bs

/-- Boolean substring test, standing in for JavaScript
`String.prototype.includes`. -/
def containsSub (needle hay : String) : Bool :=
  containsSubList needle.toList hay.toList

/-- Character-wise lower-casing, standing in for JavaScript
`String.prototype.toLowerCase` (the two agree on the ASCII messages this
code inspects). -/
def lowerStr (s : String) : String :=
  String.mk (s.data.map Char.toLower)

/-- `ShopifyGraphQLError.isThrottled`: some entry has
`extensions.code === "THROTTLED"` or a message containing `"THROTTLED"`. -/
def isThrottledErrors (errors : List GqlErrEntry) : Bool :=
  errors.any fun e =>
    e.extensionsCode == some "THROTTLED" || containsSub "THROTTLED" e.message

/-- Classification of a thrown error as done by the retry loop:
`err instanceof ShopifyGraphQLError && err.isThrottled()`. -/
def ClientError.isThrottled : ClientError → Bool
  | .graphQLErrors errors => isThrottledErrors errors
  | _ => false

/-- `ShopifyClient.graphql` on one observed HTTP response: throw on non-ok
status, throw `ShopifyGraphQLError` when the body carries `errors`,
otherwise return `data`. -/
def graphql {α : Type} : HttpResponse α → Except ClientError α
  | .notOk status statusText => .error (.httpError status statusText)
  | .ok (some errors) _ => .error (.graphQLErrors errors)
  | .ok none data => .ok data

/-- The observable trace of one `graphqlWithRetry` invocation: the final
result (returned data or thrown error), how many times `graphql` was
called, and the backoff delays (milliseconds) inserted between calls,
in order. -/
structure RetryTrace (α : Type) where
  result : Except ClientError α
  calls : Nat
  delays : List Nat
deriving Repr

/-- The `for (let attempt = 0; attempt < maxRetries; attempt++)` loop of
`graphqlWithRetry`, entered at a given `attempt` value.  A throttled error
with retries left sleeps `2^attempt * 1000` ms and continues; any other
error is rethrown; falling out of the loop throws
`"Max retries exhausted"`. -/
def graphqlWithRetryGo {α : Type} (resp : Nat → HttpResponse α)
    (maxRetries : Nat) (attempt : Nat) : RetryTrace α :=
  if h : attempt < maxRetries then
    match graphql (resp attempt) with
    | .ok data => { result := .ok data, calls := 1, delays := [] }
    | .error err =>
      let isThrottled := err.isThrottled
      let hasRetriesLeft := attempt < maxRetries - 1
      if isThrottled && hasRetriesLeft then
        let rest := graphqlWithRetryGo resp maxRetries (attempt + 1)
        { result := rest.result
          calls := rest.calls + 1
          delays := 2 ^ attempt * 1000 :: rest.delays }
      else
        { result := .error err, calls := 1, delays := [] }
  else
    { result := .error (.generic "Max retries exhausted"), calls := 0, delays := [] }
termination_by maxRetries - attempt
decreasing_by omega

/-- `ShopifyClient.graphqlWithRetry(query, variables, maxRetries)`:
the loop starting at attempt 0. -/
def graphqlWithRetry {α : Type} (resp : Nat → HttpResponse α)
    (maxRetries : Nat) : RetryTrace α :=
  graphqlWithRetryGo resp maxRetries 0

/-- A response whose call `graphql` turns into a throttling-classified
thrown error. -/
def throttledResponse {α : Type} (r : HttpResponse α) : Prop :=
  ∃ errors, graphql r = .error (.graphQLErrors errors) ∧ isThrottledErrors errors = true

/-- A canonical throttled response used by concrete witnesses. -/
def throttleExample : HttpResponse Nat :=
  .ok (some [{ message := "Throttled", extensionsCode := some "THROTTLED" }]) 0

/-- Behaviour of the retry loop entered at `attempt` when every remaining
call is throttled: one call per remaining attempt, a backoff of
`2 ^ i * 1000` ms after the i-th of them except the last, and the final
result is the error of the last call. -/
theorem graphqlWithRetryGo_throttled {α : Type} (resp : Nat → HttpResponse α)
    (maxRetries : Nat) :
    ∀ fuel attempt, maxRetries - attempt = fuel → attempt < maxRetries →
    (∀ i, attempt ≤ i → i < maxRetries → throttledResponse (resp i)) →
    (graphqlWithRetryGo resp maxRetries attempt).calls = maxRetries - attempt ∧
    (graphqlWithRetryGo resp maxRetries attempt).delays =
      (List.range (maxRetries - 1 - attempt)).map (fun a => 2 ^ (attempt + a) * 1000) ∧
    ∃ e, graphql (resp (maxRetries - 1)) = .error e ∧
      (graphqlWithRetryGo resp maxRetries attempt).result = .error e := by
  intro fuel
  induction fuel with
  | zero => intro attempt hfuel hlt hthr; exact ((by omega : False)).elim
  | succ n ih =>
    intro attempt hfuel hlt hthr
    obtain ⟨errors, herr, hthrot⟩ := hthr attempt le_rfl hlt
    by_cases hleft : attempt < maxRetries - 1
    · rw [graphqlWithRetryGo, dif_pos hlt, herr]
      simp only [ClientError.isThrottled, hthrot, Bool.true_and, decide_eq_true_eq,
        if_pos hleft]
      obtain ⟨hcalls, hdelays, e, hlaste, hres⟩ :=
        ih (attempt + 1) (by omega) (by omega) (fun i hi hi2 => hthr i (by omega) hi2)
      refine ⟨?_, ?_, e, hlaste, ?_⟩
      · simp only [hcalls]; omega
      · simp only [hdelays]
        have hrg : maxRetries - 1 - attempt = (maxRetries - 1 - (attempt + 1)) + 1 := by
          omega
        rw [hrg, List.range_succ_eq_map, List.map_cons, List.map_map]
        congr 1
        apply List.map_congr_left
        intro a ha
        simp only [Function.comp_apply]
        have hx : attempt + 1 + a = attempt + Nat.succ a := by omega
        rw [hx]
      · simpa using hres
    · rw [graphqlWithRetryGo, dif_pos hlt, herr]
      simp only [ClientError.isThrottled, hthrot, Bool.true_and, decide_eq_true_eq,
        if_neg hleft]
      have hlasteq : attempt = maxRetries - 1 := by omega
      refine ⟨by omega, by simp [show maxRetries - 1 - attempt = 0 by omega], ?_⟩
      exact ⟨.graphQLErrors errors, by rw [← hlasteq, herr], rfl⟩

/-- C1 — When every underlying call fails with a throttling-classified
error and `maxRetries ≥ 1`, `graphqlWithRetry` makes exactly `maxRetries`
calls (hence at most `maxRetries`), the delay inserted before retry
attempt `k` (the (k+1)-th call) is `2 ^ (k-1) * 1000` ms, i.e.
`2 ^ attempt` seconds with `attempt` starting at 0, and after exhausting
attempts it fails with the error of the last call. -/
theorem retry_throttled_backoff_and_last_error {α : Type}
    (resp : Nat → HttpResponse α) (maxRetries : Nat)
    (hmax : 1 ≤ maxRetries)
    (hthr : ∀ i, i < maxRetries → throttledResponse (resp i)) :
    (graphqlWithRetry resp maxRetries).calls = maxRetries ∧
    (graphqlWithRetry resp maxRetries).delays =
      (List.range (maxRetries - 1)).map (fun a => 2 ^ a * 1000) ∧
    (∀ k, 1 ≤ k → k ≤ maxRetries - 1 →
      (graphqlWithRetry resp maxRetries).delays.get? (k - 1) =
        some (2 ^ (k - 1) * 1000)) ∧
    ∃ e, graphql (resp (maxRetries - 1)) = .error e ∧
      (graphqlWithRetry resp maxRetries).result = .error e := by
  obtain ⟨hcalls, hdelays, e, hlast, hres⟩ :=
    graphqlWithRetryGo_throttled resp maxRetries (maxRetries - 0) 0 rfl (by omega)
      (fun i _ hi => hthr i hi)
  have hdelays0 : (graphqlWithRetry resp maxRetries).delays =
      (List.range (maxRetries - 1)).map (fun a => 2 ^ a * 1000) := by
    simpa [graphqlWithRetry] using hdelays
  refine ⟨by simpa [graphqlWithRetry] using hcalls, hdelays0, ?_, e, hlast,
    by simpa [graphqlWithRetry] using hres⟩
  intro k hk1 hk2
  rw [hdelays0, List.get?_map, List.get?_range (by omega)]
  rfl

/-- Witness for C1: three throttled calls, delays 1000 ms then 2000 ms,
final result the throttled error of the third call. -/
theorem retry_throttled_backoff_and_last_error_witness :
    (graphqlWithRetry (fun _ => throttleExample) 3).calls = 3 ∧
    (graphqlWithRetry (fun _ => throttleExample) 3).delays =
      (List.range 2).map (fun a => 2 ^ a * 1000) ∧
    (∀ k, 1 ≤ k → k ≤ 2 →
      (graphqlWithRetry (fun _ => throttleExample) 3).delays.get? (k - 1) =
        some (2 ^ (k - 1) * 1000)) ∧
    ∃ e, graphql ((fun _ => throttleExample) 2) = .error e ∧
      (graphqlWithRetry (fun _ => throttleExample) 3).result = .error e :=
  retry_throttled_backoff_and_last_error (fun _ => throttleExample) 3
    (by norm_num)
    (fun i _ =>
      ⟨[{ message := "Throttled", extensionsCode := some "THROTTLED" }], rfl,
        by decide⟩)

/-- C2 — A business-rule error (errors inside a 200 body, not classified
as throttling) is never retried: `graphqlWithRetry` makes exactly one
call, inserts no delay, and surfaces the error verbatim. -/
theorem retry_business_error_single_call {α : Type}
    (resp : Nat → HttpResponse α) (maxRetries : Nat)
    (errors : List GqlErrEntry)
    (hmax : 1 ≤ maxRetries)
    (hbiz : graphql (resp 0) = .error (.graphQLErrors errors))
    (hnotthr : isThrottledErrors errors = false) :
    graphqlWithRetry resp maxRetries =
      { result := .error (.graphQLErrors errors), calls := 1, delays := [] } := by
  rw [graphqlWithRetry, graphqlWithRetryGo, dif_pos (by omega : 0 < maxRetries), hbiz]
  simp [ClientError.isThrottled, hnotthr]

/-- Witness for C2: with `maxRetries = 5`, a non-throttled body-level
error produces exactly one call and is surfaced verbatim. -/
theorem retry_business_error_single_call_witness :
    graphqlWithRetry
        (fun _ => (.ok (some [{ message := "Title has already been taken",
                                extensionsCode := none }]) 0 : HttpResponse Nat)) 5 =
      { result := .error (.graphQLErrors
          [{ message := "Title has already been taken", extensionsCode := none }]),
        calls := 1, delays := [] } :=
  retry_business_error_single_call _ 5 _ (by norm_num) rfl (by decide)

/-! ## Collection reconciler (src/app/api/onboarding/step3-collections/route.ts)

`findOrCreateCollection` issues the `collectionCreate` mutation first; when
the mutation returns no collection it scans the `userErrors` for a
uniqueness-conflict message (lower-cased text containing `"taken"` or
`"already"`) and, if found, falls back to `fetchExistingCollection`, a
`collectionByHandle` lookup; otherwise it returns `null`.

The remote platform is modelled at its documented interface boundary: a
store of collections keyed by handle, where `collectionCreate` on a taken
handle returns the `userErrors` entry `"Handle has already been taken"`
and creates nothing, and `collectionByHandle` returns the first collection
with the given handle.  Transport is modelled as reliable (every round
trip completes), so the source's `catch` fallback — taken only on thrown
transport errors — has no trigger here. -/

/-- One remote collection as returned by the GraphQL API. -/
structure CollectionInfo where
  id : String
  handle : String
  title : String
deriving DecidableEq, Repr

/-- One entry of a mutation's `userErrors` array. -/
structure UserError where
  field : String
  message : String
deriving DecidableEq, Repr

/-- Parsed payload of the `collectionCreate` mutation. -/
structure CreatePayload where
  collection : Option CollectionInfo
  userErrors : List UserError
deriving DecidableEq, Repr

/-- Remote store state: the collections that exist plus a fresh-id
counter. -/
structure RemoteCollections where
  collections : List CollectionInfo
  nextId : Nat
deriving DecidableEq, Repr

/-- Remote semantics of `collectionCreate`: reject a taken handle with a
uniqueness `userErrors` entry, otherwise append a fresh collection. -/
def collectionCreate (st : RemoteCollections) (title handle : String) :
    RemoteCollections × CreatePayload :=
  if st.collections.any (fun c => c.handle == handle) then
    (st, { collection := none,
           userErrors := [{ field := "handle",
                            message := "Handle has already been taken" }] })
  else
    let c : CollectionInfo :=
      { id := "gid://shopify/Collection/" ++ toString st.nextId
        handle := handle, title := title }
    ({ collections := st.collections ++ [c], nextId := st.nextId + 1 },
     { collection := some c, userErrors := [] })

/-- Remote semantics of the `collectionByHandle` query. -/
def collectionByHandle (st : RemoteCollections) (handle : String) :
    Option CollectionInfo :=
  st.collections.find? (fun c => c.handle == handle)

/-- The record `findOrCreateCollection` returns to its caller. -/
structure CollectionRec where
  id : String
  handle : String
  name : String
deriving DecidableEq, Repr

/-- The uniqueness-conflict test of `findOrCreateCollection`:
`e.message.toLowerCase().includes("taken") ||
 e.message.toLowerCase().includes("already")`. -/
def hasDuplicateError (userErrors : List UserError) : Bool :=
  userErrors.any fun e =>
    containsSub "taken" (lowerStr e.message) || containsSub "already" (lowerStr e.message)

/-- `fetchExistingCollection`: map a `collectionByHandle` lookup result to
the caller-facing record, `null` when nothing was found. -/
def fetchExistingCollection (lookup : Option CollectionInfo) (name : String) :
    Option CollectionRec :=
  match lookup with
  | some c => some { id := c.id, handle := c.handle, name := name }
  | none => none

/-- Core decision logic of `findOrCreateCollection`, given the parsed
`collectionCreate` payload and the value a `collectionByHandle` lookup
would return: use the created collection when present; on a
uniqueness-conflict error fall back to the lookup; otherwise `null`. -/
def findOrCreateCollection (createResp : CreatePayload)
    (lookup : Option CollectionInfo) (name : String) : Option CollectionRec :=
  match createResp.collection with
  | some c => some { id := c.id, handle := c.handle, name := name }
  | none =>
    if hasDuplicateError createResp.userErrors then
      fetchExistingCollection lookup name
    else
      none

/-- `findOrCreateCollection` run against the remote-store model: the
create mutation mutates the store, the conditional lookup reads it. -/
def findOrCreateCollectionOn (st : RemoteCollections) (name handle : String) :
    RemoteCollections × Option CollectionRec :=
  let (st1, resp) := collectionCreate st name handle
  (st1, findOrCreateCollection resp (collectionByHandle st1 handle) name)

/-- Helper: appending to a list in which no element matches leaves `find?`
looking only at the appended part. -/
theorem find?_append_of_any_eq_false {α : Type} (l : List α) (c : α)
    (p : α → Bool) (h : l.any p = false) :
    (l ++ [c]).find? p = if p c then some c else none := by
  induction l with
  | nil => cases hpc : p c <;> simp [List.find?, hpc]
  | cons a as ihl =>
    simp only [List.any_cons, Bool.or_eq_false_iff] at h
    simp [List.find?, h.1, ihl h.2]

/-- The canonical conflict message of the remote model is caught by the
duplicate test of `findOrCreateCollection`. -/
theorem dup_message_detected :
    hasDuplicateError
      [{ field := "handle", message := "Handle has already been taken" }] = true := by
  decide

/-- C3 — Invoking `findOrCreateCollection` twice in sequence with the same
name and natural key (handle) never produces two distinct remote
entities: both calls return the same (present) record, so the second call
returns the identifier of the first, and the second call leaves the
remote store unchanged. -/
theorem findOrCreate_idempotent (st : RemoteCollections) (name handle : String) :
    ∃ c : CollectionRec,
      (findOrCreateCollectionOn st name handle).2 = some c ∧
      (findOrCreateCollectionOn (findOrCreateCollectionOn st name handle).1
        name handle).2 = some c ∧
      (findOrCreateCollectionOn (findOrCreateCollectionOn st name handle).1
        name handle).1 = (findOrCreateCollectionOn st name handle).1 := by
  by_cases hex : st.collections.any (fun c => c.handle == handle)
  · -- the handle already exists: both calls are conflict-then-lookup
    have hfind : (st.collections.find? (fun c => c.handle == handle)).isSome := by
      rw [List.find?_isSome]
      exact List.any_eq_true.mp hex
    obtain ⟨c0, hc0⟩ := Option.isSome_iff_exists.mp hfind
    refine ⟨{ id := c0.id, handle := c0.handle, name := name }, ?_, ?_, ?_⟩ <;>
      simp [findOrCreateCollectionOn, collectionCreate, hex, findOrCreateCollection,
        dup_message_detected, collectionByHandle, hc0,
        fetchExistingCollection]
  · -- fresh handle: first call creates, second hits the conflict fallback
    have hx : (st.collections ++
        [({ id := "gid://shopify/Collection/" ++ toString st.nextId,
            handle := handle, title := name } : CollectionInfo)]).find?
          (fun c => c.handle == handle) =
        some { id := "gid://shopify/Collection/" ++ toString st.nextId,
               handle := handle, title := name } := by
      rw [find?_append_of_any_eq_false _ _ _ (by simpa using hex)]
      simp
    have hany : (st.collections ++
        [({ id := "gid://shopify/Collection/" ++ toString st.nextId,
            handle := handle, title := name } : CollectionInfo)]).any
          (fun c => c.handle == handle) = true := by
      simp [List.any_append]
    refine ⟨{ id := "gid://shopify/Collection/" ++ toString st.nextId,
              handle := handle, name := name }, ?_, ?_, ?_⟩ <;>
      simp [findOrCreateCollectionOn, collectionCreate, hex, findOrCreateCollection,
        dup_message_detected, collectionByHandle, hany, hx,
        fetchExistingCollection]

/-- One entry of the `errors` array of the step-3 response body, with the
collection name as key. -/
structure NameError where
  name : String
  reason : String
deriving DecidableEq, Repr

/-- Per-name bookkeeping of the step-3 `POST` loop: a returned collection
is pushed to `createdCollections`, a `null` pushes the fixed error entry
`"Falha ao criar e coleção existente não encontrada"`. -/
def step3RecordOutcome (name : String) (col : Option CollectionRec) :
    Option CollectionRec × Option NameError :=
  match col with
  | some c => (some c, none)
  | none =>
    (none, some { name := name,
                  reason := "Falha ao criar e coleção existente não encontrada" })

/-- A remote call `findOrCreateCollection` can issue. -/
inductive RemoteCall where
  | create (title handle : String)
  | byHandle (handle : String)
deriving DecidableEq, Repr

/-- The sequence of remote calls `findOrCreateCollection` issues, as a
function of the create mutation's payload: the create mutation always
comes first, and the lookup is issued only on a duplicate-classified
failure. -/
def findOrCreateCalls (createResp : CreatePayload) (name handle : String) :
    List RemoteCall :=
  match createResp.collection with
  | some _ => [.create name handle]
  | none =>
    if hasDuplicateError createResp.userErrors then
      [.create name handle, .byHandle handle]
    else
      [.create name handle]

/-- A create payload carrying only a uniqueness-conflict business error. -/
def dupOnlyRespEx : CreatePayload :=
  { collection := none,
    userErrors := [{ field := "title", message := "Title has already been taken" }] }

/-- Counterexample to C8 as stated: when creation fails with a
uniqueness-conflict error and the fallback lookup also finds nothing,
`findOrCreateCollection` returns `null` and the step-3 caller records the
fixed generic reason, not the original failure message — the original
failure is not surfaced as-is. -/
theorem findOrCreate_original_failure_not_surfaced :
    findOrCreateCollection dupOnlyRespEx none "Best Sellers" = none ∧
    (step3RecordOutcome "Best Sellers"
        (findOrCreateCollection dupOnlyRespEx none "Best Sellers")).2 =
      some { name := "Best Sellers",
             reason := "Falha ao criar e coleção existente não encontrada" } ∧
    ("Falha ao criar e coleção existente não encontrada" =
      "Title has already been taken" → False) := by
  refine ⟨by decide, by decide, by decide⟩

/-- C8 (amended) — `findOrCreateCollection` always issues the create
mutation first; it issues the lookup-by-handle exactly when creation
returned no collection and some `userErrors` message, lower-cased,
contains `"taken"` or `"already"`; and when the entity is still not found
after the lookup it returns `null`, whereupon the caller records a fixed
generic failure entry (the original failure text is only logged, not
surfaced). -/
theorem findOrCreate_create_first_then_lookup (resp : CreatePayload)
    (lookup : Option CollectionInfo) (name handle : String) :
    (findOrCreateCalls resp name handle).head? = some (.create name handle) ∧
    (RemoteCall.byHandle handle ∈ findOrCreateCalls resp name handle ↔
      resp.collection = none ∧ hasDuplicateError resp.userErrors = true) ∧
    (resp.collection = none → hasDuplicateError resp.userErrors = true →
      lookup = none →
      findOrCreateCollection resp lookup name = none ∧
      (step3RecordOutcome name (findOrCreateCollection resp lookup name)).2 =
        some { name := name,
               reason := "Falha ao criar e coleção existente não encontrada" }) := by
  refine ⟨?_, ?_, ?_⟩
  · cases hc : resp.collection <;>
      simp [findOrCreateCalls, hc] <;>
      by_cases hd : hasDuplicateError resp.userErrors <;> simp [hd]
  · cases hc : resp.collection with
    | none =>
      by_cases hd : hasDuplicateError resp.userErrors <;>
        simp [findOrCreateCalls, hc, hd]
    | some c => simp [findOrCreateCalls, hc]
  · intro hc hd hl
    subst hl
    simp [findOrCreateCollection, hc, hd, fetchExistingCollection, step3RecordOutcome]

/-- Witness for the amended C8 at a concrete conflicting input. -/
theorem findOrCreate_create_first_then_lookup_witness :
    (findOrCreateCalls dupOnlyRespEx "Best Sellers" "best-sellers").head? =
      some (.create "Best Sellers" "best-sellers") ∧
    RemoteCall.byHandle "best-sellers" ∈
      findOrCreateCalls dupOnlyRespEx "Best Sellers" "best-sellers" ∧
    findOrCreateCollection dupOnlyRespEx none "Best Sellers" = none ∧
    (step3RecordOutcome "Best Sellers"
        (findOrCreateCollection dupOnlyRespEx none "Best Sellers")).2 =
      some { name := "Best Sellers",
             reason := "Falha ao criar e coleção existente não encontrada" } :=
  have h := findOrCreate_create_first_then_lookup dupOnlyRespEx none
    "Best Sellers" "best-sellers"
  ⟨h.1, h.2.1.mpr ⟨rfl, by decide⟩, (h.2.2 rfl (by decide) rfl).1,
    (h.2.2 rfl (by decide) rfl).2⟩

/-! ## chunkArray (src/lib/validators.ts)

`chunkArray(array, size)` walks the array with an index stepping by `size`
and pushes `array.slice(i, i + size)` chunks; the step-3 route feeds the
imported product ids to the Best Sellers collection in chunks of 250. -/

/-- `chunkArray`: split a list into consecutive slices of `size` elements
(the last may be shorter).  The source's index loop never terminates for
`size = 0` (the call sites all pass 250); that out-of-contract case is
mapped to `[]` here and excluded by the claims' `size > 0` hypothesis. -/
def chunkArray {α : Type} (xs : List α) (size : Nat) : List (List α) :=
  if hs : size = 0 then []
  else if hx : xs.length = 0 then []
  else xs.take size :: chunkArray (xs.drop size) size
termination_by xs.length
decreasing_by
  simp only [List.length_drop]
  omega

/-- The step-3 Best Sellers linking batches:
`chunkArray(productIds, 250)`. -/
def bestSellersBatches (productIds : List String) : List (List String) :=
  chunkArray productIds 250

/-- Concatenating the chunks gives back the original list. -/
theorem chunkArray_join {α : Type} (s : Nat) (hs : 0 < s) :
    ∀ n (xs : List α), xs.length ≤ n → (chunkArray xs s).join = xs := by
  intro n
  induction n with
  | zero =>
    intro xs hlen
    rw [chunkArray, dif_neg (by omega), dif_pos (by omega)]
    exact (List.eq_nil_of_length_eq_zero (by omega)).symm
  | succ n ih =>
    intro xs hlen
    by_cases hx : xs.length = 0
    · rw [chunkArray, dif_neg (by omega), dif_pos hx]
      exact (List.eq_nil_of_length_eq_zero hx).symm
    · rw [chunkArray, dif_neg (by omega), dif_neg hx]
      have hdrop : (xs.drop s).length ≤ n := by
        simp only [List.length_drop]
        omega
      have hj : (List.take s xs :: chunkArray (List.drop s xs) s).join
          = List.take s xs ++ (chunkArray (List.drop s xs) s).join := rfl
      rw [hj, ih (xs.drop s) hdrop]
      exact List.take_append_drop s xs

/-- Every chunk has at most `size` elements. -/
theorem chunkArray_length_le {α : Type} (s : Nat) :
    ∀ n (xs : List α), xs.length ≤ n → ∀ c ∈ chunkArray xs s, c.length ≤ s := by
  intro n
  induction n with
  | zero =>
    intro xs hlen c hc
    rw [chunkArray] at hc
    by_cases hs : s = 0
    · simp [hs] at hc
    · rw [dif_neg hs, dif_pos (by omega : xs.length = 0)] at hc
      simp at hc
  | succ n ih =>
    intro xs hlen c hc
    rw [chunkArray] at hc
    by_cases hs : s = 0
    · simp [hs] at hc
    · by_cases hx : xs.length = 0
      · rw [dif_neg hs, dif_pos hx] at hc
        simp at hc
      · rw [dif_neg hs, dif_neg hx] at hc
        rcases List.mem_cons.mp hc with hc | hc
        · subst hc
          simp [List.length_take]
        · have hdrop : (xs.drop s).length ≤ n := by
            simp only [List.length_drop]
            omega
          exact ih (xs.drop s) hdrop c hc

/-- C10 — For every list and every chunk size `s > 0`, the chunks
concatenate back to the list and each chunk holds at most `s` elements;
in particular the Best Sellers linking sends each imported product id
exactly once, in order, in batches of at most 250. -/
theorem chunkArray_partitions {α : Type} (xs : List α) (s : Nat) (hs : 0 < s)
    (ids : List String) :
    (chunkArray xs s).join = xs ∧
    (∀ c ∈ chunkArray xs s, c.length ≤ s) ∧
    (bestSellersBatches ids).join = ids ∧
    (∀ b ∈ bestSellersBatches ids, b.length ≤ 250) :=
  ⟨chunkArray_join s hs xs.length xs le_rfl,
   chunkArray_length_le s xs.length xs le_rfl,
   chunkArray_join 250 (by omega) ids.length ids le_rfl,
   chunkArray_length_le 250 ids.length ids le_rfl⟩

/-- Witness for C10 at a concrete list and chunk size. -/
theorem chunkArray_partitions_witness :
    (chunkArray [1, 2, 3, 4, 5] 2).join = [1, 2, 3, 4, 5] ∧
    (∀ c ∈ chunkArray [1, 2, 3, 4, 5] 2, c.length ≤ 2) ∧
    (bestSellersBatches ["a", "b", "c"]).join = ["a", "b", "c"] ∧
    (∀ b ∈ bestSellersBatches ["a", "b", "c"], b.length ≤ 250) :=
  chunkArray_partitions [1, 2, 3, 4, 5] 2 (by omega) ["a", "b", "c"]

/-! ## Step-2 bulk import stream producer
(src/app/api/onboarding/step2-products/route.ts)

The `POST` handler groups the catalog rows by handle and, inside a
`ReadableStream`, processes the groups one at a time: create the product,
push its id on success or an error entry on failure, then always increment
`processed` and emit one `progress` line; on create success it additionally
issues `productVariantsBulkCreate`, whose failure is only logged (not
pushed to `errors`).  After the loop one terminal `complete` line is
emitted.

The two remote calls of one catalog entry are modelled by their observable
outcomes (`throws` for a thrown exception, `returns` for a parsed
payload). -/

/-- Observable outcome of one `graphqlWithRetry` call at a step-2 call
site: the thrown error's message or the parsed payload. -/
inductive GqlCallOutcome (α : Type) where
  | throws (msg : String)
  | returns (payload : α)
deriving DecidableEq, Repr

/-- Parsed `productCreate` payload: the created product's id (if any) and
the `userErrors` messages. -/
structure ProductCreatePayload where
  product : Option String
  userErrors : List String
deriving DecidableEq, Repr

/-- One grouped catalog entry together with the outcomes of its two remote
calls (`productCreate`, then `productVariantsBulkCreate` in case the
create succeeded; the variant payload is its `userErrors` list). -/
structure Step2Entry where
  handle : String
  createResp : GqlCallOutcome ProductCreatePayload
  variantResp : GqlCallOutcome (List String)
deriving DecidableEq, Repr

/-- One entry of the step-2 `errors` array: handle plus reason. -/
structure ItemErr where
  handle : String
  reason : String
deriving DecidableEq, Repr

/-- A line of the newline-delimited step-2 response stream. -/
inductive StreamEvent where
  | progress (processed total : Nat)
  | complete (success : Bool) (imported failed total : Nat)
      (productIds : List String) (errors : List ItemErr) (message : String)
deriving DecidableEq, Repr

/-- Mutable state of the producer loop. -/
structure Step2Acc where
  productIds : List String
  errors : List ItemErr
  processed : Nat
  events : List StreamEvent
deriving DecidableEq, Repr

/-- Join a list of messages with `"; "`, as `messages.join("; ")` does. -/
def joinSemicolon : List String → String
  | [] => ""
  | [m] => m
  | m :: ms => m ++ "; " ++ joinSemicolon ms

/-- Shared tail of every branch of the loop body: `processed++` followed by
enqueueing one `progress` line. -/
def emitProgress (total : Nat) (acc : Step2Acc) : Step2Acc :=
  { acc with
    processed := acc.processed + 1
    events := acc.events ++ [.progress (acc.processed + 1) total] }

/-- The loop body of the stream producer for one grouped entry. -/
def processEntry (total : Nat) (acc : Step2Acc) (e : Step2Entry) : Step2Acc :=
  match e.createResp with
  | .throws msg =>
    -- outer catch: push the error, then fall through to progress
    emitProgress total { acc with errors := acc.errors ++ [⟨e.handle, msg⟩] }
  | .returns payload =>
    if payload.userErrors.length > 0 then
      emitProgress total
        { acc with errors := acc.errors ++ [⟨e.handle, joinSemicolon payload.userErrors⟩] }
    else
      match payload.product with
      | none =>
        emitProgress total
          { acc with errors := acc.errors ++ [⟨e.handle, "productCreate não retornou produto"⟩] }
      | some id =>
        -- variant failures are only logged; no error entry, no retraction
        emitProgress total { acc with productIds := acc.productIds ++ [id] }

/-- The terminal record the producer emits after the loop. -/
def step2Complete (total : Nat) (acc : Step2Acc) : StreamEvent :=
  .complete (acc.productIds.length > 0) acc.productIds.length acc.errors.length
    total acc.productIds acc.errors
    (if acc.errors.length = 0 then
      toString acc.productIds.length ++ " produtos importados com sucesso"
     else
      toString acc.productIds.length ++ " importados, " ++
        toString acc.errors.length ++ " com erro")

/-- The full producer run: fold the loop body over the grouped entries
starting from the empty accumulator, then append the terminal record. -/
def runStep2 (entries : List Step2Entry) : Step2Acc × StreamEvent :=
  let total := entries.length
  let acc := entries.foldl (processEntry total) ⟨[], [], 0, []⟩
  (acc, step2Complete total acc)

/-- The stream, line by line: every per-entry `progress` event followed by
the single terminal `complete` event. -/
def runStep2Events (entries : List Step2Entry) : List StreamEvent :=
  (runStep2 entries).1.events ++ [(runStep2 entries).2]

/-- The id an entry contributes to `productIds` (create succeeded), if
any. -/
def entryCreatedId (e : Step2Entry) : Option String :=
  match e.createResp with
  | .throws _ => none
  | .returns payload =>
    if payload.userErrors.length > 0 then none else payload.product

/-- The error entry an entry contributes to `errors` (primary create
failed), if any. -/
def entryError (e : Step2Entry) : Option ItemErr :=
  match e.createResp with
  | .throws msg => some ⟨e.handle, msg⟩
  | .returns payload =>
    if payload.userErrors.length > 0 then
      some ⟨e.handle, joinSemicolon payload.userErrors⟩
    else
      match payload.product with
      | none => some ⟨e.handle, "productCreate não retornou produto"⟩
      | some _ => none

/-- The last `progress` record of a stream, if any. -/
def lastProgress (events : List StreamEvent) : Option (Nat × Nat) :=
  events.foldl
    (fun acc ev =>
      match ev with
      | .progress p t => some (p, t)
      | _ => acc)
    none

/-- Whether the entry's variant call failed (thrown or with
`userErrors`). -/
def variantCallFailed (e : Step2Entry) : Bool :=
  match e.variantResp with
  | .throws _ => true
  | .returns msgs => msgs.length > 0

/-- Characterisation of the producer fold from an arbitrary starting
accumulator. -/
theorem step2_fold_characterisation (total : Nat) (entries : List Step2Entry) :
    ∀ acc : Step2Acc,
    (entries.foldl (processEntry total) acc).productIds =
      acc.productIds ++ entries.filterMap entryCreatedId ∧
    (entries.foldl (processEntry total) acc).errors =
      acc.errors ++ entries.filterMap entryError ∧
    (entries.foldl (processEntry total) acc).processed =
      acc.processed + entries.length ∧
    (entries.foldl (processEntry total) acc).events =
      acc.events ++
        (List.range entries.length).map
          (fun i => .progress (acc.processed + i + 1) total) := by
  induction entries with
  | nil => intro acc; simp [entryCreatedId, entryError]
  | cons e rest ih =>
    intro acc
    have hstep :
        (processEntry total acc e).productIds =
          acc.productIds ++ (entryCreatedId e).toList ∧
        (processEntry total acc e).errors =
          acc.errors ++ (entryError e).toList ∧
        (processEntry total acc e).processed = acc.processed + 1 ∧
        (processEntry total acc e).events =
          acc.events ++ [.progress (acc.processed + 1) total] := by
      cases hc : e.createResp with
      | throws msg =>
        simp [processEntry, hc, emitProgress, entryCreatedId, entryError]
      | returns payload =>
        by_cases hue : payload.userErrors.length > 0
        · simp [processEntry, hc, hue, emitProgress, entryCreatedId, entryError]
        · cases hp : payload.product with
          | none =>
            simp [processEntry, hc, hue, hp, emitProgress, entryCreatedId, entryError]
          | some id =>
            simp [processEntry, hc, hue, hp, emitProgress, entryCreatedId, entryError]
    obtain ⟨h1, h2, h3, h4⟩ := hstep
    obtain ⟨r1, r2, r3, r4⟩ := ih (processEntry total acc e)
    refine ⟨?_, ?_, ?_, ?_⟩
    · rw [List.foldl_cons, r1, h1]
      simp [List.filterMap_cons]
      cases entryCreatedId e <;> simp
    · rw [List.foldl_cons, r2, h2]
      simp [List.filterMap_cons]
      cases entryError e <;> simp
    · rw [List.foldl_cons, r3, h3, List.length_cons]
      omega
    · rw [List.foldl_cons, r4, h4, h3]
      simp only [List.length_cons, List.append_assoc, List.singleton_append,
        List.range_succ_eq_map, List.map_cons, List.map_map, Nat.add_zero]
      congr 2
      apply List.map_congr_left
      intro a ha
      simp only [Function.comp_apply]
      have hiarg : acc.processed + 1 + a + 1 = acc.processed + Nat.succ a + 1 := by
        omega
      rw [hiarg]

/-- Every entry contributes to exactly one of `productIds` and
`errors`. -/
theorem entry_exactly_one (e : Step2Entry) :
    (entryCreatedId e).isSome = !(entryError e).isSome := by
  cases hc : e.createResp with
  | throws msg => simp [entryCreatedId, entryError, hc]
  | returns payload =>
    by_cases hue : payload.userErrors.length > 0
    · simp [entryCreatedId, entryError, hc, hue]
    · cases hp : payload.product <;> simp [entryCreatedId, entryError, hc, hue, hp]

/-- The two filterMap lengths add up to the number of entries. -/
theorem filterMap_lengths_add (entries : List Step2Entry) :
    (entries.filterMap entryCreatedId).length +
      (entries.filterMap entryError).length = entries.length := by
  induction entries with
  | nil => simp
  | cons e rest ih =>
    have h := entry_exactly_one e
    simp only [List.filterMap_cons]
    cases hc : entryCreatedId e <;> cases he : entryError e <;>
      simp [hc, he] at h ⊢ <;> omega

/-- A terminal record never affects `lastProgress`. -/
theorem lastProgress_append_complete (evts : List StreamEvent)
    (success : Bool) (imported failed total : Nat) (ids : List String)
    (errs : List ItemErr) (message : String) :
    lastProgress (evts ++ [.complete success imported failed total ids errs message]) =
      lastProgress evts := by
  simp [lastProgress, List.foldl_append]

/-- The last of `n + 1` consecutive progress records reports `n + 1`
processed. -/
theorem lastProgress_range_map (n total : Nat) :
    lastProgress ((List.range (n + 1)).map
        (fun i => StreamEvent.progress (i + 1) total)) =
      some (n + 1, total) := by
  rw [List.range_succ, List.map_append]
  simp [lastProgress, List.foldl_append]

/-- C4 — For every processed catalog, the last `progress` record of the
stream reports `processed = total` (the number of grouped handles), the
terminal `complete` record satisfies `imported + failed ≤ total`, and an
entry whose product was created but whose variant call failed still has
its product id counted in the imported ids (never retracted). -/
theorem step2_progress_total_and_partial_counts (entries : List Step2Entry)
    (hne : entries ≠ []) :
    lastProgress (runStep2Events entries) =
      some (entries.length, entries.length) ∧
    (∃ success imported failed productIds errors message,
      (runStep2 entries).2 =
        .complete success imported failed entries.length productIds errors message ∧
      imported + failed ≤ entries.length ∧
      (∀ e ∈ entries, ∀ id, entryCreatedId e = some id →
        variantCallFailed e = true → id ∈ productIds)) := by
  obtain ⟨hids, herrs, hproc, hevents⟩ :=
    step2_fold_characterisation entries.length entries ⟨[], [], 0, []⟩
  constructor
  · rw [runStep2Events]
    show lastProgress ((runStep2 entries).1.events ++ [step2Complete _ _]) = _
    rw [step2Complete, lastProgress_append_complete]
    have hev : (runStep2 entries).1.events =
        (List.range entries.length).map
          (fun i => StreamEvent.progress (i + 1) entries.length) := by
      rw [runStep2]
      simpa using hevents
    rw [hev]
    obtain ⟨e, rest, hcons⟩ := List.exists_cons_of_ne_nil hne
    rw [hcons]
    have hlen : (e :: rest).length = rest.length + 1 := by simp
    rw [hlen]
    exact lastProgress_range_map rest.length (rest.length + 1)
  · refine ⟨_, _, _, _, _, _, rfl, ?_, ?_⟩
    · rw [hids, herrs]
      simp only [List.nil_append]
      exact Nat.le_of_eq (filterMap_lengths_add entries)
    · intro e he id hid hvar
      rw [hids]
      simp only [List.nil_append]
      exact List.mem_filterMap.mpr ⟨e, he, hid⟩

/-- Witness for C4 at a concrete two-entry catalog in which the second
entry's product is created but its variant call fails. -/
theorem step2_progress_total_and_partial_counts_witness :
    lastProgress (runStep2Events
      [⟨"alpha", .returns ⟨none, ["Missing price"]⟩, .returns []⟩,
       ⟨"beta", .returns ⟨some "gid-1", []⟩, .throws "variant boom"⟩]) =
      some (2, 2) ∧
    (∃ success imported failed productIds errors message,
      (runStep2
        [⟨"alpha", .returns ⟨none, ["Missing price"]⟩, .returns []⟩,
         ⟨"beta", .returns ⟨some "gid-1", []⟩, .throws "variant boom"⟩]).2 =
        .complete success imported failed 2 productIds errors message ∧
      imported + failed ≤ 2 ∧
      (∀ e ∈ [(⟨"alpha", .returns ⟨none, ["Missing price"]⟩, .returns []⟩ : Step2Entry),
              ⟨"beta", .returns ⟨some "gid-1", []⟩, .throws "variant boom"⟩],
        ∀ id, entryCreatedId e = some id →
        variantCallFailed e = true → id ∈ productIds)) :=
  step2_progress_total_and_partial_counts
    [⟨"alpha", .returns ⟨none, ["Missing price"]⟩, .returns []⟩,
     ⟨"beta", .returns ⟨some "gid-1", []⟩, .throws "variant boom"⟩]
    (by decide)

/-- The error entry an entry contributes is always keyed by that entry's
handle. -/
theorem entryError_handle (e : Step2Entry) (err : ItemErr)
    (h : entryError e = some err) : err.handle = e.handle := by
  cases hc : e.createResp with
  | throws msg =>
    simp only [entryError, hc] at h
    cases h
    rfl
  | returns payload =>
    simp only [entryError, hc] at h
    by_cases hue : payload.userErrors.length > 0
    · rw [if_pos hue] at h
      cases h
      rfl
    · rw [if_neg hue] at h
      cases hp : payload.product with
      | none =>
        simp only [hp] at h
        cases h
        rfl
      | some id =>
        simp only [hp] at h
        exact Option.noConfusion h

/-- C9 — The terminal record of the bulk import reports success exactly
when at least one product was imported, and its `errors` array holds
exactly the per-item entries of the failed primary creates, one per failed
entry, keyed by that entry's handle. -/
theorem step2_success_iff_any_imported (entries : List Step2Entry) :
    ∃ success imported failed productIds errors message,
      (runStep2 entries).2 =
        .complete success imported failed entries.length productIds errors message ∧
      (success = true ↔ 1 ≤ imported) ∧
      errors = entries.filterMap entryError ∧
      imported + failed = entries.length ∧
      (∀ e ∈ entries, ∀ err, entryError e = some err →
        err ∈ errors ∧ err.handle = e.handle) := by
  obtain ⟨hids, herrs, hproc, hevents⟩ :=
    step2_fold_characterisation entries.length entries ⟨[], [], 0, []⟩
  refine ⟨_, _, _, _, _, _, rfl, ?_, ?_, ?_, ?_⟩
  · simp only [gt_iff_lt, decide_eq_true_eq]
    omega
  · rw [herrs]
    simp only [List.nil_append]
  · rw [hids, herrs]
    simp only [List.nil_append]
    exact filterMap_lengths_add entries
  · intro e he err herr
    refine ⟨?_, entryError_handle e err herr⟩
    rw [herrs]
    simp only [List.nil_append]
    exact List.mem_filterMap.mpr ⟨e, he, herr⟩

/-! ## Streaming consumer `runStreamingStep`
(src/app/onboarding/page.tsx)

The consumer reads decoded chunks, appends each to a carry-over buffer,
splits on `"\n"`, keeps the unterminated last piece as the new buffer, and
JSON-parses every complete non-blank line: a `progress` record updates the
progress display, a `complete` record becomes `finalData` (later ones
overwrite earlier ones), anything else — including parse failures — is
ignored.  When the stream ends, a non-blank leftover buffer is parsed and
used only if it is a `complete` record; the function returns `finalData`
or, when none was ever seen, the synthesized failure
`{success: false, errors: [{handle: "_stream", reason: "No final event
received"}]}`.

Text is modelled as `List Char`; `JSON.parse` plus the `type` dispatch is
an oracle `parse` mapping a line to `progress`/`complete`/`other`
(`none` = parse throws), with the complete record's payload abstract. -/

/-- The result of parsing one line, as the consumer dispatches on it. -/
inductive ParsedLine (δ : Type) where
  | progress (processed total : Nat)
  | complete (d : δ)
  | other
deriving DecidableEq, Repr

/-- The consumer's loop state: the carry-over partial line, the last
`complete` record seen, and the progress display. -/
structure ConsumerState (δ : Type) where
  buffer : List Char
  finalData : Option δ
  shownProgress : Option (Nat × Nat)
deriving DecidableEq, Repr

/-- Split a character list at every newline, as `"...".split("\n")`: the
result is always non-empty, and the last piece is the text after the last
newline. -/
def splitNl : List Char → List (List Char)
  | [] => [[]]
  | c :: rest =>
    if c = '\n' then [] :: splitNl rest
    else
      match splitNl rest with
      | l :: ls => (c :: l) :: ls
      | [] => [[c]]

/-- A line is blank when `line.trim()` is falsy, i.e. all whitespace. -/
def isBlank (l : List Char) : Bool :=
  l.all Char.isWhitespace

/-- Process one complete line: skip blanks, parse, dispatch on `type`;
a parse failure (`catch`) is ignored. -/
def processLine {δ : Type} (parse : List Char → Option (ParsedLine δ))
    (st : ConsumerState δ) (line : List Char) : ConsumerState δ :=
  if isBlank line then st
  else
    match parse line with
    | some (.progress p t) => { st with shownProgress := some (p, t) }
    | some (.complete d) => { st with finalData := some d }
    | some .other => st
    | none => st

/-- Consume one decoded chunk: extend the buffer, split on newlines, keep
the trailing piece, process the complete lines. -/
def feedChunk {δ : Type} (parse : List Char → Option (ParsedLine δ))
    (st : ConsumerState δ) (chunk : List Char) : ConsumerState δ :=
  let lines := splitNl (st.buffer ++ chunk)
  let buffer := (lines.getLast?).getD []
  let full := lines.dropLast
  let st1 := full.foldl (processLine parse) { st with buffer := [] }
  { st1 with buffer := buffer }

/-- The value `runStreamingStep` resolves with: either the terminal
`complete` record, or the synthesized failure object. -/
inductive StreamOutcome (δ : Type) where
  | fromComplete (d : δ)
  | failed (success : Bool) (errors : List ItemErr)
deriving DecidableEq, Repr

/-- The synthesized result when the stream ended without a terminal
event. -/
def noFinalEventOutcome {δ : Type} : StreamOutcome δ :=
  .failed false [{ handle := "_stream", reason := "No final event received" }]

/-- End-of-stream handling of the leftover buffer: a non-blank leftover
is parsed and used only if it is a `complete` record (`event.type ===
"complete"`); every other outcome leaves the state unchanged. -/
def finishBuffer {δ : Type} (parse : List Char → Option (ParsedLine δ))
    (st : ConsumerState δ) : ConsumerState δ :=
  if isBlank st.buffer then st
  else
    match parse st.buffer with
    | some (.complete d) => { st with finalData := some d }
    | some (.progress _ _) => st
    | some .other => st
    | none => st

/-- Resolution: `finalData` when one was seen, else the synthesized
failure. -/
def finishStream {δ : Type} (parse : List Char → Option (ParsedLine δ))
    (st : ConsumerState δ) : StreamOutcome δ :=
  match (finishBuffer parse st).finalData with
  | some d => .fromComplete d
  | none => noFinalEventOutcome

/-- `runStreamingStep`'s read loop over the whole chunk sequence. -/
def runStreamingStep {δ : Type} (parse : List Char → Option (ParsedLine δ))
    (chunks : List (List Char)) : StreamOutcome δ :=
  finishStream parse (chunks.foldl (feedChunk parse) ⟨[], none, none⟩)

/-- One step of the reference function: a non-blank line parsing as a
`complete` record overwrites the accumulator. -/
def lastCompleteStep {δ : Type} (parse : List Char → Option (ParsedLine δ))
    (acc : Option δ) (l : List Char) : Option δ :=
  if isBlank l then acc
  else
    match parse l with
    | some (.complete d) => some d
    | some (.progress _ _) => acc
    | some .other => acc
    | none => acc

/-- Reference function: the last `complete` record among the non-blank
lines, starting from a previously seen one. -/
def lastCompleteFrom {δ : Type} (parse : List Char → Option (ParsedLine δ))
    (fd : Option δ) (lines : List (List Char)) : Option δ :=
  lines.foldl (lastCompleteStep parse) fd

/-- Lift the reference value to the resolved outcome. -/
def mkOutcome {δ : Type} : Option δ → StreamOutcome δ
  | some d => .fromComplete d
  | none => noFinalEventOutcome

/-- Concatenation of all chunks of the stream. -/
def joinChunks : List (List Char) → List Char
  | [] => []
  | c :: cs => c ++ joinChunks cs

/-- Merge of two newline splits: the first piece of the second split
continues the last piece of the first split. -/
def joinSplit : List (List Char) → List (List Char) → List (List Char)
  | [], ys => ys
  | [x], ys =>
    match ys with
    | [] => [x]
    | y :: ys2 => (x ++ y) :: ys2
  | x :: x2 :: xs, ys => x :: joinSplit (x2 :: xs) ys

/-- Helper: `getLast?` of a two-or-more-element list skips the head. -/
theorem getLast?_cons2 {α : Type} (a b : α) (l : List α) :
    (a :: b :: l).getLast? = (b :: l).getLast? := by
  simp [List.getLast?]

/-- Helper: `dropLast` of a two-or-more-element list keeps the head. -/
theorem dropLast_cons2 {α : Type} (a b : α) (l : List α) :
    (a :: b :: l).dropLast = a :: (b :: l).dropLast := rfl

/-- `splitNl` never returns the empty list. -/
theorem splitNl_ne_nil (l : List Char) : splitNl l ≠ [] := by
  induction l with
  | nil => simp [splitNl]
  | cons c rest ih =>
    rw [splitNl]
    by_cases hc : c = '\n'
    · simp [hc]
    · rw [if_neg hc]
      cases hs : splitNl rest with
      | nil => simp
      | cons l ls => simp

/-- On a non-empty first argument, `joinSplit` of a cons with a non-empty
tail prepends the head. -/
theorem joinSplit_cons_of_ne_nil (x : List Char) (xs ys : List (List Char))
    (hxs : xs ≠ []) : joinSplit (x :: xs) ys = x :: joinSplit xs ys := by
  cases xs with
  | nil => exact absurd rfl hxs
  | cons a as => rfl

/-- Splitting a concatenation merges the two splits. -/
theorem splitNl_append (x y : List Char) :
    splitNl (x ++ y) = joinSplit (splitNl x) (splitNl y) := by
  induction x with
  | nil =>
    cases hs : splitNl y with
    | nil => exact absurd hs (splitNl_ne_nil y)
    | cons l ls => simp [splitNl, joinSplit, hs]
  | cons c rest ih =>
    by_cases hc : c = '\n'
    · subst hc
      rw [List.cons_append, splitNl, if_pos rfl, splitNl, if_pos rfl, ih,
        joinSplit_cons_of_ne_nil _ _ _ (splitNl_ne_nil rest)]
    · rw [List.cons_append, splitNl, if_neg hc, splitNl, if_neg hc, ih]
      cases hs : splitNl rest with
      | nil => exact absurd hs (splitNl_ne_nil rest)
      | cons l ls =>
        cases ls with
        | nil =>
          cases ht : splitNl y with
          | nil => exact absurd ht (splitNl_ne_nil y)
          | cons m ms => simp [joinSplit]
        | cons l2 ls2 => simp [joinSplit]

/-- A newline-free text splits into itself only. -/
theorem splitNl_no_newline (l : List Char) (h : '\n' ∉ l) :
    splitNl l = [l] := by
  induction l with
  | nil => rfl
  | cons c rest ih =>
    rw [splitNl, if_neg (by
      intro hc
      exact h (hc ▸ List.mem_cons_self c rest))]
    rw [ih (fun hm => h (List.mem_cons_of_mem c hm))]

/-- The trailing piece of a newline split contains no newline. -/
theorem splitNl_getLast_no_newline (l : List Char) :
    '\n' ∉ ((splitNl l).getLast?).getD [] := by
  induction l with
  | nil => simp [splitNl]
  | cons c rest ih =>
    rw [splitNl]
    by_cases hc : c = '\n'
    · rw [if_pos hc]
      cases hs : splitNl rest with
      | nil => exact absurd hs (splitNl_ne_nil rest)
      | cons m ms =>
        rw [hs] at ih
        cases ms with
        | nil => simpa using ih
        | cons m2 ms2 => rwa [getLast?_cons2]
    · rw [if_neg hc]
      cases hs : splitNl rest with
      | nil => exact absurd hs (splitNl_ne_nil rest)
      | cons m ms =>
        rw [hs] at ih
        cases ms with
        | nil =>
          simp only [List.getLast?, Option.getD_some] at ih ⊢
          intro hmem
          rcases List.mem_cons.mp hmem with hmem | hmem
          · exact hc hmem.symm
          · exact ih hmem
        | cons m2 ms2 => rwa [getLast?_cons2]

/-- Decomposing `joinSplit` at the last piece of its first argument. -/
theorem joinSplit_eq_dropLast_append (xs ys : List (List Char)) (hxs : xs ≠ []) :
    joinSplit xs ys =
      xs.dropLast ++ joinSplit [(xs.getLast?).getD []] ys := by
  induction xs with
  | nil => exact absurd rfl hxs
  | cons x xs ih =>
    cases xs with
    | nil => simp [joinSplit]
    | cons x2 xs2 =>
      rw [joinSplit_cons_of_ne_nil _ _ _ (by simp), ih (by simp),
        getLast?_cons2, dropLast_cons2, List.cons_append]

/-- One loop line changes `finalData` exactly as the reference step
does. -/
theorem processLine_finalData {δ : Type}
    (parse : List Char → Option (ParsedLine δ)) (st : ConsumerState δ)
    (l : List Char) :
    (processLine parse st l).finalData = lastCompleteStep parse st.finalData l := by
  rw [processLine, lastCompleteStep]
  by_cases hb : isBlank l
  · rw [if_pos hb, if_pos hb]
  · rw [if_neg hb, if_neg hb]
    cases hp : parse l with
    | none => rfl
    | some pl => cases pl <;> rfl

/-- Folding the loop over complete lines tracks the reference
function. -/
theorem processLines_finalData {δ : Type}
    (parse : List Char → Option (ParsedLine δ)) (lines : List (List Char)) :
    ∀ st : ConsumerState δ,
    (lines.foldl (processLine parse) st).finalData =
      lastCompleteFrom parse st.finalData lines := by
  induction lines with
  | nil => intro st; rfl
  | cons l rest ih =>
    intro st
    rw [List.foldl_cons, ih, processLine_finalData]
    rfl

/-- What one chunk does to the consumer state: the new buffer is the
trailing piece of the split, and `finalData` advances over the complete
lines. -/
theorem feedChunk_spec {δ : Type}
    (parse : List Char → Option (ParsedLine δ)) (st : ConsumerState δ)
    (chunk : List Char) :
    (feedChunk parse st chunk).buffer =
      ((splitNl (st.buffer ++ chunk)).getLast?).getD [] ∧
    (feedChunk parse st chunk).finalData =
      lastCompleteFrom parse st.finalData
        ((splitNl (st.buffer ++ chunk)).dropLast) := by
  constructor
  · rfl
  · show (((splitNl (st.buffer ++ chunk)).dropLast).foldl (processLine parse)
      { st with buffer := [] }).finalData = _
    rw [processLines_finalData]

/-- Resolving a newline-free leftover buffer agrees with running the
reference step on it. -/
theorem finishStream_eq_mkOutcome {δ : Type}
    (parse : List Char → Option (ParsedLine δ)) (st : ConsumerState δ) :
    finishStream parse st =
      mkOutcome (lastCompleteStep parse st.finalData st.buffer) := by
  rw [finishStream, finishBuffer, lastCompleteStep]
  by_cases hb : isBlank st.buffer
  · rw [if_pos hb, if_pos hb]
    cases st.finalData <;> rfl
  · rw [if_neg hb, if_neg hb]
    cases hp : parse st.buffer with
    | none => cases st.finalData <;> rfl
    | some pl => cases pl <;> cases st.finalData <;> rfl

/-- The reference fold splits over list concatenation. -/
theorem lastCompleteFrom_append {δ : Type}
    (parse : List Char → Option (ParsedLine δ)) (fd : Option δ)
    (l1 l2 : List (List Char)) :
    lastCompleteFrom parse fd (l1 ++ l2) =
      lastCompleteFrom parse (lastCompleteFrom parse fd l1) l2 := by
  rw [lastCompleteFrom, lastCompleteFrom, lastCompleteFrom, List.foldl_append]

/-- Main invariant: from any state whose carry-over buffer holds no
newline, consuming the remaining chunks and resolving equals running the
reference function over the newline split of buffer plus remaining
text. -/
theorem consume_spec {δ : Type}
    (parse : List Char → Option (ParsedLine δ)) :
    ∀ (chunks : List (List Char)) (st : ConsumerState δ),
    '\n' ∉ st.buffer →
    finishStream parse (chunks.foldl (feedChunk parse) st) =
      mkOutcome (lastCompleteFrom parse st.finalData
        (splitNl (st.buffer ++ joinChunks chunks))) := by
  intro chunks
  induction chunks with
  | nil =>
    intro st hb
    rw [List.foldl_nil, joinChunks, List.append_nil,
      splitNl_no_newline st.buffer hb, finishStream_eq_mkOutcome]
    rfl
  | cons c rest ih =>
    intro st hb
    rw [List.foldl_cons]
    obtain ⟨hbuf, hfd⟩ := feedChunk_spec parse st c
    have hnonl : '\n' ∉ (feedChunk parse st c).buffer := by
      rw [hbuf]
      exact splitNl_getLast_no_newline (st.buffer ++ c)
    rw [ih (feedChunk parse st c) hnonl, hfd, hbuf]
    have hassoc : st.buffer ++ joinChunks (c :: rest) =
        (st.buffer ++ c) ++ joinChunks rest := by
      rw [joinChunks, List.append_assoc]
    have hsplit : splitNl ((st.buffer ++ c) ++ joinChunks rest) =
        joinSplit (splitNl (st.buffer ++ c)) (splitNl (joinChunks rest)) :=
      splitNl_append _ _
    rw [hassoc, hsplit,
      joinSplit_eq_dropLast_append _ _ (splitNl_ne_nil (st.buffer ++ c)),
      lastCompleteFrom_append]
    have hnoL : '\n' ∉ ((splitNl (st.buffer ++ c)).getLast?).getD [] :=
      splitNl_getLast_no_newline (st.buffer ++ c)
    have hlastsplit :
        joinSplit [((splitNl (st.buffer ++ c)).getLast?).getD []]
            (splitNl (joinChunks rest)) =
          splitNl (((splitNl (st.buffer ++ c)).getLast?).getD [] ++
            joinChunks rest) := by
      rw [splitNl_append (((splitNl (st.buffer ++ c)).getLast?).getD [])
        (joinChunks rest), splitNl_no_newline _ hnoL]
    rw [hlastsplit]

/-- C5 — The consumer splits the byte stream on newlines and buffers the
partial trailing line, so its result depends only on the concatenated
text; the authoritative result is the last well-formed `complete` record
among the non-blank lines; and when the stream ends without any such
record it resolves to the synthesized failure — `success = false` with
the single `"_stream" / "No final event received"` error — rather than
success. -/
theorem runStreamingStep_spec {δ : Type}
    (parse : List Char → Option (ParsedLine δ))
    (chunks chunks2 : List (List Char)) :
    runStreamingStep parse chunks =
      mkOutcome (lastCompleteFrom parse none (splitNl (joinChunks chunks))) ∧
    (joinChunks chunks = joinChunks chunks2 →
      runStreamingStep parse chunks = runStreamingStep parse chunks2) ∧
    (lastCompleteFrom parse none (splitNl (joinChunks chunks)) = none →
      runStreamingStep parse chunks =
        .failed false [{ handle := "_stream",
                         reason := "No final event received" }]) := by
  have hmain : ∀ cs : List (List Char), runStreamingStep parse cs =
      mkOutcome (lastCompleteFrom parse none (splitNl (joinChunks cs))) := by
    intro cs
    rw [runStreamingStep, consume_spec parse cs ⟨[], none, none⟩ (by simp)]
    rfl
  refine ⟨hmain chunks, ?_, ?_⟩
  · intro heq
    rw [hmain chunks, hmain chunks2, heq]
  · intro hnone
    rw [hmain chunks, hnone]
    rfl

/-- A toy parse oracle for the concrete witness: `"P"` is a progress
record, `"C"` a complete record, everything else fails to parse. -/
def parseEx : List Char → Option (ParsedLine Nat) := fun l =>
  if l = "P".toList then some (.progress 1 2)
  else if l = "C".toList then some (.complete 7)
  else none

/-- Witness for C5: the same text split at different chunk boundaries,
containing no terminal record, resolves to the synthesized failure. -/
theorem runStreamingStep_spec_witness :
    runStreamingStep parseEx ["P\nnoise".toList] =
      mkOutcome (lastCompleteFrom parseEx none
        (splitNl (joinChunks ["P\nnoise".toList]))) ∧
    runStreamingStep parseEx ["P\nnoise".toList] =
      runStreamingStep parseEx ["P".toList, "\nnoi".toList, "se".toList] ∧
    runStreamingStep parseEx ["P\nnoise".toList] =
      .failed false [{ handle := "_stream",
                       reason := "No final event received" }] :=
  have h := runStreamingStep_spec parseEx ["P\nnoise".toList]
    ["P".toList, "\nnoi".toList, "se".toList]
  ⟨h.1, h.2.1 (by decide), h.2.2 (by decide)⟩

/-! ## Pipeline orchestration and resume (src/app/onboarding/page.tsx)

`handleRetry` finds the first step of `STEPS` with a recorded error,
clears that error, and re-runs the steps from its index to the end; each
run fetches the step endpoint, merges the response into the `pipeRef`
accumulator via `applyPipelineData`, and stops at the first unsuccessful
response.  Step responses are modelled by an oracle from step id to the
parsed response data; the purely visual bookkeeping (summaries, spinner
state) is omitted. -/

/-- A step definition as in the source `STEPS` table. -/
structure StepDef where
  id : Nat
  label : String
  endpoint : String
  streaming : Bool
deriving DecidableEq, Repr

/-- The `STEPS` table (ids 1..8 in execution order). -/
def STEPS : List StepDef :=
  [⟨1, "Validar CSV", "/api/onboarding/step1-csv", false⟩,
   ⟨2, "Importar Produtos", "/api/onboarding/step2-products", true⟩,
   ⟨3, "Criar Coleções", "/api/onboarding/step3-collections", false⟩,
   ⟨4, "Upload do Tema", "/api/onboarding/step4-theme", false⟩,
   ⟨5, "Upload de Imagens", "/api/onboarding/step5-images", false⟩,
   ⟨6, "Configurar Tema", "/api/onboarding/step7-configure", false⟩,
   ⟨7, "Publicar Tema", "/api/onboarding/step6-publish", false⟩,
   ⟨8, "Menus e Políticas", "/api/onboarding/step8-menus", false⟩]

/-- One collection-image reference of the pipeline state. -/
structure CollectionImage where
  handle : String
  url : String
deriving DecidableEq, Repr

/-- The `PipelineData` accumulator of `pipeRef` (the raw `csvText` field
is set before the run, not by a step, and is not touched by
`applyPipelineData`). -/
structure Pipe where
  totalProducts : Nat
  productIds : List String
  collections : List CollectionRec
  bestSellersId : String
  themeId : String
  logoUrl : String
  faviconUrl : String
  bannerDesktopUrl : String
  bannerMobileUrl : String
  collectionImages : List CollectionImage
deriving DecidableEq, Repr

/-- The parsed response body of one step request, with `success` plus the
optional step-specific fields `applyPipelineData` reads (absent fields
are `none`, matching the `data.x || default` reads). -/
structure StepData where
  success : Bool
  totalProducts : Option Nat
  productIds : Option (List String)
  collections : Option (List CollectionRec)
  bestSellersId : Option String
  themeId : Option String
  logoUrl : Option String
  faviconUrl : Option String
  bannerDesktopUrl : Option String
  bannerMobileUrl : Option String
  collectionImages : Option (List CollectionImage)
deriving DecidableEq, Repr

/-- `applyPipelineData(stepId, data)`: merge the response into the
accumulator; steps 6, 7 and 8 write nothing. -/
def applyPipelineData (stepId : Nat) (data : StepData) (pipe : Pipe) : Pipe :=
  match stepId with
  | 1 => { pipe with totalProducts := data.totalProducts.getD 0 }
  | 2 => { pipe with productIds := data.productIds.getD [] }
  | 3 => { pipe with collections := data.collections.getD []
                     bestSellersId := data.bestSellersId.getD "" }
  | 4 => { pipe with themeId := data.themeId.getD "" }
  | 5 => { pipe with logoUrl := data.logoUrl.getD ""
                     faviconUrl := data.faviconUrl.getD ""
                     bannerDesktopUrl := data.bannerDesktopUrl.getD ""
                     bannerMobileUrl := data.bannerMobileUrl.getD ""
                     collectionImages := data.collectionImages.getD [] }
  | _ => pipe

/-- Orchestrator state visible to this claim: the accumulator, the
per-step error map, the completed set, the ids invoked so far (in
invocation order), and the `done` flag. -/
structure OrchState where
  pipe : Pipe
  stepErrors : List (Nat × String)
  completedSteps : List Nat
  invoked : List Nat
  done : Bool
deriving DecidableEq, Repr

/-- Whether the error map holds an entry for a step id
(`stepErrors[s.id]` is truthy). -/
def hasStepError (errors : List (Nat × String)) (id : Nat) : Bool :=
  errors.any (fun p => p.1 == id)

/-- `runStep` followed by the caller's bookkeeping: fetch the step's
response, merge it into the accumulator, then report success (the thrown
error of the source becomes the `Bool`). -/
def runStep (outcome : Nat → StepData) (st : OrchState) (sd : StepDef) :
    OrchState × Bool :=
  let data := outcome sd.id
  ({ st with
      pipe := applyPipelineData sd.id data st.pipe
      invoked := st.invoked ++ [sd.id] },
   data.success)

/-- The `for (let i = startIdx; ...)` loop shared by `handleStart` and
`handleRetry`: run the remaining steps in order, marking them completed,
stopping at the first failure (recording its error); set `done` after the
last. -/
def runFrom (outcome : Nat → StepData) (st : OrchState) :
    List StepDef → OrchState
  | [] => { st with done := true }
  | sd :: rest =>
    let (st1, ok) := runStep outcome st sd
    if ok then
      runFrom outcome
        { st1 with
            completedSteps :=
              if sd.id ∈ st1.completedSteps then st1.completedSteps
              else st1.completedSteps ++ [sd.id] }
        rest
    else
      { st1 with stepErrors := st1.stepErrors ++ [(sd.id, "Falha na etapa")] }

/-- `handleRetry`: find the first step with a recorded error, clear that
error, and re-run from its index onward; with no failed step nothing
runs.  (The source pairs `STEPS.find` with `STEPS.indexOf` on the found
element; as `STEPS` has no duplicate entries this is the index of the
first match, `findIdx`.) -/
def handleRetry (outcome : Nat → StepData) (st : OrchState) : OrchState :=
  match STEPS.find? (fun sd => hasStepError st.stepErrors sd.id) with
  | none => st
  | some failedStep =>
    let st1 := { st with
      stepErrors := st.stepErrors.filter (fun p => ¬(p.1 == failedStep.id)) }
    let startIdx := STEPS.findIdx (fun sd => hasStepError st.stepErrors sd.id)
    runFrom outcome st1 (STEPS.drop startIdx)

/-- Agreement of two accumulators on every field populated by a step
before step `k` (fields are owned by the step id that writes them:
1 — totalProducts, 2 — productIds, 3 — collections and bestSellersId,
4 — themeId, 5 — the image fields; steps 6..8 write none). -/
def agreesBelow (k : Nat) (p q : Pipe) : Prop :=
  (1 < k → p.totalProducts = q.totalProducts) ∧
  (2 < k → p.productIds = q.productIds) ∧
  (3 < k → p.collections = q.collections ∧ p.bestSellersId = q.bestSellersId) ∧
  (4 < k → p.themeId = q.themeId) ∧
  (5 < k → p.logoUrl = q.logoUrl ∧ p.faviconUrl = q.faviconUrl ∧
    p.bannerDesktopUrl = q.bannerDesktopUrl ∧
    p.bannerMobileUrl = q.bannerMobileUrl ∧
    p.collectionImages = q.collectionImages)

/-- `agreesBelow` is reflexive. -/
theorem agreesBelow_refl (k : Nat) (p : Pipe) : agreesBelow k p p := by
  refine ⟨fun _ => rfl, fun _ => rfl, fun _ => ⟨rfl, rfl⟩, fun _ => rfl,
    fun _ => ⟨rfl, rfl, rfl, rfl, rfl⟩⟩

/-- `agreesBelow` is transitive. -/
theorem agreesBelow_trans (k : Nat) (p q r : Pipe)
    (h1 : agreesBelow k p q) (h2 : agreesBelow k q r) : agreesBelow k p r := by
  obtain ⟨a1, a2, a3, a4, a5⟩ := h1
  obtain ⟨b1, b2, b3, b4, b5⟩ := h2
  refine ⟨fun h => (a1 h).trans (b1 h), fun h => (a2 h).trans (b2 h),
    fun h => ⟨((a3 h).1).trans ((b3 h).1), ((a3 h).2).trans ((b3 h).2)⟩,
    fun h => (a4 h).trans (b4 h), fun h => ?_⟩
  obtain ⟨x1, x2, x3, x4, x5⟩ := a5 h
  obtain ⟨y1, y2, y3, y4, y5⟩ := b5 h
  exact ⟨x1.trans y1, x2.trans y2, x3.trans y3, x4.trans y4, x5.trans y5⟩

/-- Applying the data of a step with id at least `k` leaves every field
owned by a step before `k` unchanged. -/
theorem applyPipelineData_agreesBelow (k j : Nat) (data : StepData) (p : Pipe)
    (hj : k ≤ j) : agreesBelow k p (applyPipelineData j data p) := by
  match j with
  | 0 => exact agreesBelow_refl k p
  | 1 =>
    refine ⟨fun h => absurd h (by omega), fun _ => rfl, fun _ => ⟨rfl, rfl⟩,
      fun _ => rfl, fun _ => ⟨rfl, rfl, rfl, rfl, rfl⟩⟩
  | 2 =>
    refine ⟨fun _ => rfl, fun h => absurd h (by omega), fun _ => ⟨rfl, rfl⟩,
      fun _ => rfl, fun _ => ⟨rfl, rfl, rfl, rfl, rfl⟩⟩
  | 3 =>
    refine ⟨fun _ => rfl, fun _ => rfl, fun h => absurd h (by omega),
      fun _ => rfl, fun _ => ⟨rfl, rfl, rfl, rfl, rfl⟩⟩
  | 4 =>
    refine ⟨fun _ => rfl, fun _ => rfl, fun _ => ⟨rfl, rfl⟩,
      fun h => absurd h (by omega), fun _ => ⟨rfl, rfl, rfl, rfl, rfl⟩⟩
  | 5 =>
    refine ⟨fun _ => rfl, fun _ => rfl, fun _ => ⟨rfl, rfl⟩, fun _ => rfl,
      fun h => absurd h (by omega)⟩
  | (n + 6) => exact agreesBelow_refl k p

/-- Running a list of steps whose outcomes all succeed invokes exactly
their ids in order and only touches fields owned by steps at least
`k` (when every id in the list is at least `k`). -/
theorem runFrom_all_success (outcome : Nat → StepData) (k : Nat) :
    ∀ (steps : List StepDef) (st : OrchState),
    (∀ sd ∈ steps, (outcome sd.id).success = true) →
    (∀ sd ∈ steps, k ≤ sd.id) →
    (runFrom outcome st steps).invoked = st.invoked ++ steps.map (fun sd => sd.id) ∧
    agreesBelow k st.pipe (runFrom outcome st steps).pipe := by
  intro steps
  induction steps with
  | nil =>
    intro st hsucc hk
    exact ⟨by simp [runFrom], agreesBelow_refl k st.pipe⟩
  | cons sd rest ih =>
    intro st hsucc hk
    rw [runFrom]
    simp only [runStep]
    rw [if_pos (hsucc sd (List.mem_cons_self sd rest))]
    obtain ⟨hinv, hagree⟩ := ih _
      (fun x hx => hsucc x (List.mem_cons_of_mem sd hx))
      (fun x hx => hk x (List.mem_cons_of_mem sd hx))
    constructor
    · rw [hinv]
      simp
    · refine agreesBelow_trans k _ _ _
        (applyPipelineData_agreesBelow k sd.id (outcome sd.id) st.pipe
          (hk sd (List.mem_cons_self sd rest))) ?_
      exact hagree

/-- Locating the earliest failed step in the concrete `STEPS` table:
its index is `k - 1` and the found entry's id is `k`. -/
theorem steps_find_first_error (errors : List (Nat × String)) (k : Nat)
    (hk1 : 1 ≤ k) (hk8 : k ≤ 8)
    (herr : hasStepError errors k = true)
    (hbefore : ∀ j, j < k → hasStepError errors j = false) :
    STEPS.findIdx (fun sd => hasStepError errors sd.id) = k - 1 ∧
    (STEPS.find? (fun sd => hasStepError errors sd.id)).map (fun sd => sd.id) =
      some k := by
  interval_cases k <;>
    exact ⟨by simp [STEPS, List.findIdx_cons, hbefore, herr],
           by simp [STEPS, List.find?_cons, hbefore, herr]⟩

/-- The tail of `STEPS` from index `k - 1` holds exactly the steps with
ids `k..8`, in order. -/
theorem steps_drop_ids (k : Nat) (hk1 : 1 ≤ k) (hk8 : k ≤ 8) :
    (∀ sd ∈ STEPS.drop (k - 1), k ≤ sd.id) ∧
    (STEPS.drop (k - 1)).map (fun sd => sd.id) = List.range' k (9 - k) := by
  interval_cases k <;> exact ⟨by decide, by decide⟩

/-- C6 — When step `k` is the earliest failed step and every step from
`k` on succeeds, `handleRetry` re-invokes exactly the steps `k..8`, in
order (in particular it never re-invokes a step before `k`), and every
pipeline field populated by a step before `k` holds the same value after
the resume as before it. -/
theorem handleRetry_resumes_from_earliest_failed (outcome : Nat → StepData)
    (st : OrchState) (k : Nat)
    (hk1 : 1 ≤ k) (hk8 : k ≤ 8)
    (herr : hasStepError st.stepErrors k = true)
    (hbefore : ∀ j, j < k → hasStepError st.stepErrors j = false)
    (hsucc : ∀ j, k ≤ j → (outcome j).success = true) :
    (handleRetry outcome st).invoked = st.invoked ++ List.range' k (9 - k) ∧
    (∀ j ∈ (handleRetry outcome st).invoked, j ∈ st.invoked ∨ k ≤ j) ∧
    agreesBelow k st.pipe (handleRetry outcome st).pipe := by
  obtain ⟨hidx, hfind⟩ := steps_find_first_error st.stepErrors k hk1 hk8 herr hbefore
  obtain ⟨hge, hmap⟩ := steps_drop_ids k hk1 hk8
  cases hf : STEPS.find? (fun sd => hasStepError st.stepErrors sd.id) with
  | none => rw [hf] at hfind; simp at hfind
  | some sdk =>
    rw [hf] at hfind
    have hid : sdk.id = k := by simpa using hfind
    have hretry : handleRetry outcome st =
        runFrom outcome
          { st with stepErrors :=
              st.stepErrors.filter (fun p => ¬(p.1 == sdk.id)) }
          (STEPS.drop (k - 1)) := by
      rw [handleRetry, hf, hidx]
    obtain ⟨hinv, hagree⟩ := runFrom_all_success outcome k (STEPS.drop (k - 1))
      { st with stepErrors :=
          st.stepErrors.filter (fun p => ¬(p.1 == sdk.id)) }
      (fun sd hsd => hsucc sd.id (hge sd hsd))
      hge
    have hinvoked : (handleRetry outcome st).invoked =
        st.invoked ++ List.range' k (9 - k) := by
      rw [hretry, hinv, hmap]
    refine ⟨hinvoked, ?_, ?_⟩
    · intro j hj
      rw [hinvoked] at hj
      rcases List.mem_append.mp hj with hj | hj
      · exact Or.inl hj
      · exact Or.inr (List.mem_range'_1.mp hj).1
    · rw [hretry]
      exact hagree

/-- A pipeline accumulator in the state steps 1 and 2 would have left. -/
def pipeExC6 : Pipe :=
  { totalProducts := 5, productIds := ["p1", "p2"], collections := [],
    bestSellersId := "", themeId := "", logoUrl := "", faviconUrl := "",
    bannerDesktopUrl := "", bannerMobileUrl := "", collectionImages := [] }

/-- An orchestrator state whose only failure is recorded against
step 3. -/
def stExC6 : OrchState :=
  { pipe := pipeExC6, stepErrors := [(3, "Falha na etapa")],
    completedSteps := [1, 2], invoked := [], done := false }

/-- An oracle under which every step responds successfully. -/
def outcomeExC6 : Nat → StepData := fun _ =>
  { success := true, totalProducts := some 5, productIds := some ["p1", "p2"],
    collections := some [], bestSellersId := some "bs", themeId := some "t1",
    logoUrl := some "l", faviconUrl := some "f", bannerDesktopUrl := some "bd",
    bannerMobileUrl := some "bm", collectionImages := some [] }

/-- Witness for C6: with step 3 the earliest failure, the retry invokes
exactly steps 3..8 and leaves the fields of steps 1 and 2 unchanged. -/
theorem handleRetry_resumes_witness :
    (handleRetry outcomeExC6 stExC6).invoked =
      stExC6.invoked ++ List.range' 3 6 ∧
    (∀ j ∈ (handleRetry outcomeExC6 stExC6).invoked,
      j ∈ stExC6.invoked ∨ 3 ≤ j) ∧
    agreesBelow 3 stExC6.pipe (handleRetry outcomeExC6 stExC6).pipe :=
  handleRetry_resumes_from_earliest_failed outcomeExC6 stExC6 3
    (by omega) (by omega) (by decide)
    (fun j hj => by interval_cases j <;> decide)
    (fun j hj => rfl)

/-! ## Step-4 theme upload (src/app/api/onboarding/step4-theme/route.ts)

The `POST` handler: reuse an existing theme if one with the target name
exists; else upload the zip to blob storage (`put`, recording `blobUrl`),
run `themeCreate` with the blob's public URL, poll `waitForProcessing` up
to 60 times, delete the blob after success (nulling `blobUrl`), and in
the `finally` block delete whatever `blobUrl` still names — so every
failure exit (create error, missing id, processing timeout, thrown
exception) also deletes the blob.

Blob storage is a list of URLs; `put` appends a fresh URL, `del` removes
it (deletion is modelled as effective, so the source's best-effort
`catch` around `del` has no trigger).  Remote calls are modelled by their
outcomes as in step 2. -/

/-- One node of the `themes(first: 50)` listing. -/
structure ThemeListEntry where
  id : String
  name : String
  role : String
deriving DecidableEq, Repr

/-- Parsed payload of the `themeCreate` mutation: the theme (id and its
`processing` flag) and the `userErrors` messages. -/
structure ThemeCreatePayload where
  theme : Option (String × Bool)
  userErrors : List String
deriving DecidableEq, Repr

/-- The environment one `POST` invocation observes. -/
structure Step4Env where
  themeZip : Bool
  storeName : String
  listThemes : GqlCallOutcome (List ThemeListEntry)
  blobUrl : String
  themeCreate : GqlCallOutcome ThemeCreatePayload
  poll : Nat → GqlCallOutcome Bool

/-- The theme name the handler builds from the shop. -/
def themeNameOf (env : Step4Env) : String :=
  "VT-PRO - " ++ env.storeName

/-- `findExistingTheme`: list the themes, match by name; any listing
error yields `null`. -/
def findExistingTheme (outcome : GqlCallOutcome (List ThemeListEntry))
    (themeName : String) : Option String :=
  match outcome with
  | .throws _ => none
  | .returns nodes =>
    (nodes.find? (fun t => t.name == themeName)).map (fun t => t.id)

/-- `waitForProcessing` from poll index `i`: up to `MAX_POLLS = 60`
status queries; `processing = false` means ready; polling errors are
logged and the loop continues; exhaustion returns `false`. -/
def waitForProcessingGo (poll : Nat → GqlCallOutcome Bool) :
    Nat → Nat → Bool
  | 0, _ => false
  | remaining + 1, i =>
    match poll i with
    | .returns false => true
    | _ => waitForProcessingGo poll remaining (i + 1)

/-- `waitForProcessing(client, themeId)`: the loop with its full budget
of `MAX_POLLS = 60` attempts. -/
def waitForProcessing (poll : Nat → GqlCallOutcome Bool) : Bool :=
  waitForProcessingGo poll 60 0

/-- The JSON body and HTTP status of one `POST` response. -/
structure Step4Response where
  success : Bool
  themeId : Option String
  message : String
  status : Nat
deriving DecidableEq, Repr

/-- The `try`/`catch` part of the handler: the response, the value the
`blobUrl` variable holds on exit, and the blob store.  Thrown remote
errors land in the `catch` (status 500) with `blobUrl` still set. -/
def step4TryBody (env : Step4Env) (blobs : List String) :
    Step4Response × Option String × List String :=
  if env.themeZip = false then
    ({ success := false, themeId := none,
       message := "Arquivo .zip do tema não fornecido.", status := 400 },
     none, blobs)
  else
    match findExistingTheme env.listThemes (themeNameOf env) with
    | some existingId =>
      ({ success := true, themeId := some existingId,
         message := "Tema existente reutilizado: " ++ themeNameOf env,
         status := 200 }, none, blobs)
    | none =>
      -- PASSO 1: put the zip; blobUrl := blob.url
      let blobs1 := blobs ++ [env.blobUrl]
      match env.themeCreate with
      | .throws msg =>
        ({ success := false, themeId := none, message := msg, status := 500 },
         some env.blobUrl, blobs1)
      | .returns payload =>
        if payload.userErrors.length > 0 then
          ({ success := false, themeId := none,
             message := joinSemicolon payload.userErrors, status := 200 },
           some env.blobUrl, blobs1)
        else
          match payload.theme with
          | none =>
            ({ success := false, themeId := none,
               message := "themeCreate não retornou ID.", status := 200 },
             some env.blobUrl, blobs1)
          | some (themeId, _) =>
            if waitForProcessing env.poll then
              -- PASSO 4: delete the blob, blobUrl := null
              ({ success := true, themeId := some themeId,
                 message := "Tema \x22" ++ themeNameOf env ++
                   "\x22 enviado e processado.", status := 200 },
               none, blobs1.erase env.blobUrl)
            else
              ({ success := false, themeId := some themeId,
                 message := "Timeout: tema ainda processando após 3 minutos.",
                 status := 200 }, some env.blobUrl, blobs1)

/-- The `finally` block: delete whatever `blobUrl` still names. -/
def step4Finally (r : Step4Response × Option String × List String) :
    Step4Response × List String :=
  match r.2.1 with
  | some url => (r.1, r.2.2.erase url)
  | none => (r.1, r.2.2)

/-- The whole handler. -/
def step4POST (env : Step4Env) (blobs : List String) :
    Step4Response × List String :=
  step4Finally (step4TryBody env blobs)

/-- C7 — On every exit path of the staged theme upload the temporary blob
is deleted: whatever the create outcome, poll outcome or thrown
exception, the blob store after the handler equals the store before it
(given the fresh upload URL was not already present); and the
exhausted-poll path in particular reports the dedicated timeout failure
while still leaving no artifact behind. -/
theorem step4_blob_never_leaked (env : Step4Env) (blobs : List String)
    (hfresh : env.blobUrl ∉ blobs) :
    (step4POST env blobs).2 = blobs ∧
    (∀ payload themeId processing, env.themeZip = true →
      findExistingTheme env.listThemes (themeNameOf env) = none →
      env.themeCreate = .returns payload →
      payload.userErrors = [] →
      payload.theme = some (themeId, processing) →
      waitForProcessing env.poll = false →
      (step4POST env blobs).1.success = false ∧
      (step4POST env blobs).1.themeId = some themeId ∧
      (step4POST env blobs).1.message =
        "Timeout: tema ainda processando após 3 minutos.") := by
  have herase : (blobs ++ [env.blobUrl]).erase env.blobUrl = blobs := by
    rw [List.erase_append_right _ hfresh]
    simp [List.erase_cons_head]
  by_cases hzip : env.themeZip = false
  · constructor
    · simp [step4POST, step4TryBody, hzip, step4Finally]
    · intro payload themeId processing hz
      rw [hz] at hzip
      exact absurd hzip (by simp)
  · have hzip' : env.themeZip = true := by
      cases h : env.themeZip
      · exact absurd h hzip
      · rfl
    cases hex : findExistingTheme env.listThemes (themeNameOf env) with
    | some existingId =>
      constructor
      · simp [step4POST, step4TryBody, hzip', hex, step4Finally]
      · intro payload themeId processing _ hex2
        exact Option.noConfusion hex2
    | none =>
      cases hc : env.themeCreate with
      | throws msg =>
        constructor
        · simp [step4POST, step4TryBody, hzip', hex, hc, step4Finally, herase]
        · intro payload themeId processing _ _ hc2
          exact GqlCallOutcome.noConfusion hc2
      | returns payload =>
        by_cases hue : payload.userErrors.length > 0
        · constructor
          · simp [step4POST, step4TryBody, hzip', hex, hc, hue, step4Finally,
              herase]
          · intro payload2 themeId processing _ _ hc2 hue2
            cases hc2
            rw [hue2] at hue
            simp at hue
        · cases hp : payload.theme with
          | none =>
            constructor
            · simp [step4POST, step4TryBody, hzip', hex, hc, hue, hp,
                step4Finally, herase]
            · intro payload2 themeId processing _ _ hc2 _ hp2
              cases hc2
              rw [hp] at hp2
              exact Option.noConfusion hp2
          | some idpair =>
            obtain ⟨themeId0, processing0⟩ := idpair
            by_cases hpoll : waitForProcessing env.poll = true
            · constructor
              · simp [step4POST, step4TryBody, hzip', hex, hc, hue, hp, hpoll,
                  step4Finally, herase]
              · intro payload2 themeId processing _ _ _ _ _ hpoll2
                rw [hpoll] at hpoll2
                exact Bool.noConfusion hpoll2
            · have hpoll' : waitForProcessing env.poll = false := by
                cases h : waitForProcessing env.poll
                · rfl
                · exact absurd h hpoll
              refine ⟨?_, ?_⟩
              · simp [step4POST, step4TryBody, hzip', hex, hc, hue, hp, hpoll',
                  step4Finally, herase]
              · intro payload2 themeId processing _ _ hc2 _ hp2 _
                cases hc2
                rw [hp] at hp2
                have hid : themeId0 = themeId := by
                  cases hp2
                  rfl
                subst hid
                simp [step4POST, step4TryBody, hzip', hex, hc, hue, hp,
                  hpoll', step4Finally]

/-- A concrete environment whose theme never finishes processing. -/
def envTimeoutEx : Step4Env :=
  { themeZip := true, storeName := "minha-loja",
    listThemes := .returns [], blobUrl := "blob://themes/minha-loja.zip",
    themeCreate := .returns { theme := some ("gid-theme-1", true),
                              userErrors := [] },
    poll := fun _ => .returns true }

/-- Witness for C7: the timeout path deletes the blob and reports the
dedicated timeout message. -/
theorem step4_blob_never_leaked_witness :
    (step4POST envTimeoutEx ["blob://other"]).2 = ["blob://other"] ∧
    (step4POST envTimeoutEx ["blob://other"]).1.success = false ∧
    (step4POST envTimeoutEx ["blob://other"]).1.themeId = some "gid-theme-1" ∧
    (step4POST envTimeoutEx ["blob://other"]).1.message =
      "Timeout: tema ainda processando após 3 minutos." :=
  have h := step4_blob_never_leaked envTimeoutEx ["blob://other"] (by decide)
  have h2 := h.2 { theme := some ("gid-theme-1", true), userErrors := [] }
    "gid-theme-1" true rfl rfl rfl rfl rfl (by decide)
  ⟨h.1, h2.1, h2.2.1, h2.2.2⟩

end ShopifySetup
